import Mathlib

/-!
Shallow embedding of the Play Store release-edit pipeline of
`release-the-hounds` (`src/play-store/edits.js`, `metadata.js`,
`distribution.js`, `graphics.js`, `releases.js`, `config-loader.js`).

Modelling conventions:
* The Android Publisher API is an external collaborator; every platform
  response a function consumes is passed in as an explicit
  `Except JsError _` argument, and every request the function issues is
  recorded in a returned `List ApiCall` trace (in issue order).
* The on-disk state file `.autopublish/state.json` is an explicit
  `StateFile` value threaded through the session functions; a function
  that may rewrite it returns the new value.
* JavaScript numbers are modelled as exact values (`Int` for epoch
  milliseconds and version codes, `ℚ` for `parseFloat` results); JS
  string truthiness (`""` and `undefined`/`null` are falsy) is modelled
  by `strTruthy` on `Option String`.
* A thrown JS `Error` is an `Except.error` carrying the message string.
-/

namespace Hounds

/-- `pat` is a prefix of `l` (character lists). -/
def hasPrefixChars : List Char → List Char → Bool
  | [], _ => true
  | _ :: _, [] => false
  | p :: ps, c :: cs => p == c && hasPrefixChars ps cs

/-- `pat` occurs as a contiguous sublist of `l`. -/
def containsSub (l pat : List Char) : Bool :=
  match l with
  | [] => pat.isEmpty
  | c :: cs => hasPrefixChars pat (c :: cs) || containsSub cs pat

/-- JS `String.prototype.includes`: `true` iff `pat` occurs in `s`. -/
def includes (s pat : String) : Bool :=
  containsSub s.toList pat.toList

/-- JS truthiness of an optional string: `undefined`, `null` and `""`
are falsy, every other string is truthy. -/
def strTruthy (o : Option String) : Bool :=
  o.getD "" != ""

/-- Node `path.join` restricted to the two-argument form the sources use. -/
def joinPath (a b : String) : String :=
  a ++ "/" ++ b

/-- The characters after the last `/` of a path. -/
def basenameChars (l : List Char) : List Char :=
  (l.reverse.takeWhile (fun c => c != '/')).reverse

/-- Node `path.extname(p).toLowerCase()`: from the last `.` of the last
path component to its end, lowercased; empty when the basename has no
dot, only its leading dotfile dot, or is `..`. -/
def extnameLower (p : String) : String :=
  let base := basenameChars p.toList
  if base = ['.', '.'] then ""
  else
    let revBase := base.reverse
    let revExt := revBase.takeWhile (fun c => c != '.')
    if revExt.length = revBase.length then ""
    else if revExt.length + 1 = revBase.length && base.headD ' ' = '.' then ""
    else String.mk (('.' :: revExt.reverse).map Char.toLower)

/-- An error object surfaced by the googleapis client: optional HTTP
status `code` and a `message`. -/
structure JsError where
  code : Option Nat
  message : String
deriving DecidableEq, Repr

/-- One release entry of a track, as built by `setReleaseTrack`. -/
structure Release where
  versionCodes : List String
  status : String
  releaseNotes : Option (List (String × String))
deriving DecidableEq, Repr

/-- A request issued against the Android Publisher API, as recorded in a
call trace. -/
inductive ApiCall where
  | editsInsert (packageName : String)
  | editsGet (packageName editId : String)
  | bundleUpload (packageName : String) (editId : Option String) (path : String)
  | apkUpload (packageName : String) (editId : Option String) (path : String)
  | listingsUpdate (packageName editId language title shortDescription fullDescription : String)
  | tracksGet (packageName editId track : String)
  | tracksUpdate (packageName editId track : String) (releases : List Release)
  | imageUpload (packageName editId language imageType path : String)
deriving DecidableEq, Repr

/-! ## State file (`.autopublish/state.json`) -/

/-- One persisted edit record: `state.playStore.edits[packageName]`.
`createdAt` is the epoch-millisecond reading of the stored ISO string. -/
structure EditRecord where
  editId : String
  createdAt : Int
deriving DecidableEq, Repr

/-- The `playStore` section of the state file: the `edits` map keyed by
package name, and the `apps` section (opaque per-package blobs). -/
structure PlayStoreSection where
  edits : String → Option EditRecord
  apps : String → Option String

/-- The whole state file: the `playStore` section plus every other
top-level field (opaque blobs keyed by field name). -/
structure StateFile where
  playStore : PlayStoreSection
  rest : String → Option String

/-! ## `src/play-store/edits.js` -/

/-- `saveEditState`: writes `{editId, createdAt: now}` under
`state.playStore.edits[packageName]`, leaving everything else intact. -/
def saveEditState (packageName editId : String) (now : Int) (s : StateFile) : StateFile :=
  { s with playStore :=
    { s.playStore with edits := fun k =>
        if k = packageName then some { editId := editId, createdAt := now }
        else s.playStore.edits k } }

/-- `clearEditState`: deletes `state.playStore.edits[packageName]` and
rewrites the file, but only when such a record exists; `none` models
"the state file is not rewritten". -/
def clearEditState (packageName : String) (s : StateFile) : Option StateFile :=
  if (s.playStore.edits packageName).isSome then
    some { s with playStore :=
      { s.playStore with edits := fun k =>
          if k = packageName then none else s.playStore.edits k } }
  else
    none

/-- Milliseconds per hour, the denominator of `hoursSinceCreation`. -/
def msPerHour : Int := 1000 * 60 * 60

/-- `getExistingEdit`: returns the stored edit id unless the record is
absent, its `editId` is falsy, or `hoursSinceCreation >= 1`
(for integer millisecond timestamps the float test
`(now - createdAt) / 3600000 >= 1` holds exactly when
`now - createdAt >= 3600000`). -/
def getExistingEdit (now : Int) (s : StateFile) (packageName : String) : Option String :=
  match s.playStore.edits packageName with
  | none => none
  | some editState =>
    if editState.editId = "" then none
    else if msPerHour ≤ now - editState.createdAt then none
    else some editState.editId

/-- `createEdit`: issues `edits.insert`; on success saves the edit state
and returns the new id, on failure wraps the platform error (a 404
becomes the "not found" message). -/
def createEdit (insertResp : Except JsError String) (now : Int) (packageName : String)
    (s : StateFile) : Except String String × StateFile × List ApiCall :=
  match insertResp with
  | .ok editId =>
    (.ok editId, saveEditState packageName editId now s, [.editsInsert packageName])
  | .error e =>
    (if e.code = some 404 then
      .error ("App " ++ packageName ++ " not found in Play Console. Create the app first.")
    else
      .error ("Failed to create edit session: " ++ e.message),
     s, [.editsInsert packageName])

/-- Result of `validateEdit`: the platform payload when `response.data`
is truthy, otherwise the local `{ valid: true }` fallback. -/
inductive ValidateResult where
  | payload (data : String)
  | assumedValid
deriving DecidableEq, Repr

/-- `validateEdit`: issues `edits.validate`; a platform failure is
wrapped and re-thrown. It never touches the state file (it has no
`StateFile` argument). -/
def validateEdit (validateResp : Except JsError (Option String)) (packageName editId : String) :
    Except String ValidateResult :=
  match validateResp with
  | .ok (some data) => .ok (.payload data)
  | .ok none => .ok .assumedValid
  | .error e => .error ("Edit validation failed: " ++ e.message)

/-- `commitEdit`: issues `edits.commit`; on success clears the persisted
edit state (no-op if absent) and returns the platform data, on failure
wraps the error (400 gets the "try validating" hint) and leaves the
state file untouched. -/
def commitEdit (commitResp : Except JsError String) (packageName : String) (s : StateFile) :
    Except String String × StateFile :=
  match commitResp with
  | .ok data => (.ok data, (clearEditState packageName s).getD s)
  | .error e =>
    (if e.code = some 400 then
      .error ("Edit commit failed: " ++ e.message ++ ". Try validating the edit first.")
    else
      .error ("Failed to commit edit: " ++ e.message),
     s)

/-! ## Binary upload (`releases.js`, `src/unnamed/part_005`) -/

/-- What an AAB/APK upload response carries, and what `uploadBuild`
returns from it. -/
structure UploadData where
  versionCode : Int
  versionName : Option String
  sha1 : Option String
  sha256 : Option String
deriving DecidableEq, Repr

/-- `uploadAAB`: issues `edits.bundles.upload`; on success fills in the
`versionName` fallback, on failure wraps the error (400 becomes
"Invalid AAB file"). -/
def uploadAAB (uploadResp : Except JsError UploadData) (packageName : String)
    (editId : Option String) (aabPath : String) :
    Except String UploadData × List ApiCall :=
  match uploadResp with
  | .ok d =>
    let versionName :=
      if strTruthy d.versionName then d.versionName.getD ""
      else "version-" ++ toString d.versionCode
    (.ok { versionCode := d.versionCode, versionName := some versionName,
           sha1 := d.sha1, sha256 := none },
     [.bundleUpload packageName editId aabPath])
  | .error e =>
    (if e.code = some 400 then .error ("Invalid AAB file: " ++ e.message)
     else .error ("Failed to upload AAB: " ++ e.message),
     [.bundleUpload packageName editId aabPath])

/-- `uploadAPK`: issues `edits.apks.upload`; on failure wraps the error
(400 becomes "Invalid APK file"). -/
def uploadAPK (uploadResp : Except JsError UploadData) (packageName : String)
    (editId : Option String) (apkPath : String) :
    Except String UploadData × List ApiCall :=
  match uploadResp with
  | .ok d =>
    (.ok { versionCode := d.versionCode, versionName := none,
           sha1 := d.sha1, sha256 := d.sha256 },
     [.apkUpload packageName editId apkPath])
  | .error e =>
    (if e.code = some 400 then .error ("Invalid APK file: " ++ e.message)
     else .error ("Failed to upload APK: " ++ e.message),
     [.apkUpload packageName editId apkPath])

/-- `uploadBuild`: dispatches on the lowercased file extension; anything
other than `.aab` / `.apk` throws before issuing any call. -/
def uploadBuild (uploadResp : Except JsError UploadData) (packageName : String)
    (editId : Option String) (filePath : String) :
    Except String UploadData × List ApiCall :=
  let ext := extnameLower filePath
  if ext = ".aab" then uploadAAB uploadResp packageName editId filePath
  else if ext = ".apk" then uploadAPK uploadResp packageName editId filePath
  else (.error ("Unsupported file type: " ++ ext ++ ". Expected .aab or .apk"), [])

/-- `uploadBuildWithEdit`: resumes a persisted edit or creates one; when
creation fails the caught wrapped error is sniffed for "not found"
(`error.code === 404` is always false on the wrapped `Error`, which has
no `code` property) and in that case edit creation is retried once
immediately — before the upload; then the build is uploaded with
whatever edit id (possibly none) is at hand.
`insert1` / `insert2` are the platform responses to the first and
second `edits.insert` requests. -/
def uploadBuildWithEdit (insert1 insert2 : Except JsError String)
    (uploadResp : Except JsError UploadData) (now : Int)
    (packageName filePath : String) (s : StateFile) :
    Except String (UploadData × Option String) × StateFile × List ApiCall :=
  match getExistingEdit now s packageName with
  | some editId =>
    let (r, calls) := uploadBuild uploadResp packageName (some editId) filePath
    (r.map (fun d => (d, some editId)), s, calls)
  | none =>
    match createEdit insert1 now packageName s with
    | (.ok editId, s1, c1) =>
      let (r, calls) := uploadBuild uploadResp packageName (some editId) filePath
      (r.map (fun d => (d, some editId)), s1, c1 ++ calls)
    | (.error msg, s1, c1) =>
      if includes msg "not found" then
        match createEdit insert2 now packageName s1 with
        | (.ok editId, s2, c2) =>
          let (r, calls) := uploadBuild uploadResp packageName (some editId) filePath
          (r.map (fun d => (d, some editId)), s2, c1 ++ c2 ++ calls)
        | (.error _, s2, c2) =>
          let (r, calls) := uploadBuild uploadResp packageName none filePath
          (r.map (fun d => (d, none)), s2, c1 ++ c2 ++ calls)
      else
        (.error msg, s1, c1)

/-- `true` on the session-open request `edits.insert`. -/
def isInsert : ApiCall → Bool
  | .editsInsert _ => true
  | _ => false

/-- `true` on a binary upload request (bundle or APK). -/
def isUpload : ApiCall → Bool
  | .bundleUpload _ _ _ => true
  | .apkUpload _ _ _ => true
  | _ => false

/-- Number of session-open requests issued at or after the first binary
upload request of a trace. -/
def insertsFromFirstUpload (t : List ApiCall) : Nat :=
  ((t.dropWhile (fun c => !(isUpload c))).filter isInsert).length

/-! ## Listing metadata (`src/play-store/metadata.js`) -/

/-- The metadata object passed to `setListingMetadata`; absent fields
are `none`. -/
structure Metadata where
  title : Option String
  shortDescription : Option String
  fullDescription : Option String
  category : Option String
  privacyPolicyUrl : Option String
deriving DecidableEq, Repr

/-- `validateMetadata`: local checks, in source order, each guarded by
JS truthiness of the field; `urlOk` models the WHATWG `new URL(url)`
constructor succeeding (a runtime primitive, passed in as an oracle). -/
def validateMetadata (urlOk : String → Bool) (m : Metadata) : Except String Unit :=
  if strTruthy m.title && decide ((m.title.getD "").length > 50) then
    .error ("Title exceeds 50 characters (" ++ toString (m.title.getD "").length ++ " chars)")
  else if strTruthy m.shortDescription && decide ((m.shortDescription.getD "").length > 80) then
    .error ("Short description exceeds 80 characters (" ++
      toString (m.shortDescription.getD "").length ++ " chars)")
  else if strTruthy m.fullDescription && decide ((m.fullDescription.getD "").length > 4000) then
    .error ("Full description exceeds 4000 characters (" ++
      toString (m.fullDescription.getD "").length ++ " chars)")
  else if strTruthy m.privacyPolicyUrl && !(urlOk (m.privacyPolicyUrl.getD "")) then
    .error ("Invalid privacy policy URL: " ++ m.privacyPolicyUrl.getD "")
  else
    .ok ()

/-- `setListingMetadata`: runs `validateMetadata` before any request
(its error propagates unwrapped); then issues `edits.listings.update`,
and on its success the best-effort `setAppDetails` (which starts with
`edits.get` and swallows its own failures) when category or policy URL
is present. `updateResp` is the platform response to the listing
update. -/
def setListingMetadata (urlOk : String → Bool) (updateResp : Except JsError String)
    (packageName editId language : String) (m : Metadata) :
    Except String String × List ApiCall :=
  match validateMetadata urlOk m with
  | .error e => (.error e, [])
  | .ok _ =>
    let updateCall := ApiCall.listingsUpdate packageName editId language
      (m.title.getD "") (m.shortDescription.getD "") (m.fullDescription.getD "")
    match updateResp with
    | .ok data =>
      let detailCalls :=
        if strTruthy m.category || strTruthy m.privacyPolicyUrl then
          [ApiCall.editsGet packageName editId]
        else []
      (.ok data, updateCall :: detailCalls)
    | .error e =>
      (.error ("Failed to set listing metadata: " ++ e.message), [updateCall])

/-! ## Pricing and tracks (`distribution.js`) -/

/-- Decimal digits to a natural number. -/
def digitsToNat (l : List Char) : Nat :=
  l.foldl (fun acc c => acc * 10 + (c.toNat - 48)) 0

/-- JS `parseFloat` on the plain decimal forms the pricing config uses
(optional sign, integer digits, optional fraction), as an exact scaled
integer: `some (n, k)` stands for the value `n / 10 ^ k`; `none` models
`NaN`. Exponent/whitespace forms are not produced by the config format
and are not modelled; the IEEE double is modelled as the exact decimal
it denotes. -/
def jsParseFloatParts (str : String) : Option (Int × Nat) :=
  let cs := str.toList
  let neg := cs.headD ' ' = '-'
  let cs1 := if cs.headD ' ' = '-' || cs.headD ' ' = '+' then cs.drop 1 else cs
  let intPart := cs1.takeWhile Char.isDigit
  let cs2 := cs1.dropWhile Char.isDigit
  let fracPart := if cs2.headD ' ' = '.' then (cs2.drop 1).takeWhile Char.isDigit else []
  if intPart.isEmpty && fracPart.isEmpty then none
  else
    let mag : Int := (digitsToNat intPart * 10 ^ fracPart.length + digitsToNat fracPart : Nat)
    some (if neg then -mag else mag, fracPart.length)

/-- The rational value of a `parseFloat` result. -/
def jsParseFloat (str : String) : Option ℚ :=
  (jsParseFloatParts str).map (fun p => mkRat p.1 (10 ^ p.2))

/-- JS `Math.round`: `⌊x + 1/2⌋` (half-up, also for negatives). -/
def jsRound (q : ℚ) : Int :=
  ⌊q + 1 / 2⌋

/-- `Math.round((n / 10 ^ k) * 1000000)` in integer arithmetic:
`⌊x + 1/2⌋ = (2 * (n * 1000000) + 10 ^ k) / (2 * 10 ^ k)` with the
(Euclidean, here floor) division of `Int`; `roundMicros_eq_jsRound`
proves the agreement. -/
def roundMicros (n : Int) (k : Nat) : Int :=
  (2 * (n * 1000000) + (10 ^ k : Nat)) / (2 * ((10 ^ k : Nat) : Int))

/-- The pricing section of the distribution config. -/
structure Pricing where
  free : Bool
  price : Option String
  currency : Option String
deriving DecidableEq, Repr

/-- The `price` body `setPricing` sends with `edits.pricing.update`. -/
structure PriceBody where
  priceMicros : String
  currency : String
deriving DecidableEq, Repr

/-- `setPricing`: `free` sends micros `"0"`; otherwise micros is
`Math.round(parseFloat(price) * 1000000).toString()` (`"NaN"` when the
price fails to parse, as `String(NaN)`); the currency defaults to
`"USD"` in both branches. -/
def setPricing (pricing : Pricing) : PriceBody :=
  if pricing.free then
    { priceMicros := "0", currency := pricing.currency.getD "USD" }
  else
    let priceMicros :=
      match jsParseFloatParts (pricing.price.getD "") with
      | some (n, k) => toString (roundMicros n k)
      | none => "NaN"
    { priceMicros := priceMicros, currency := pricing.currency.getD "USD" }

/-- The track list the code accepts. -/
def validTracks : List String := ["internal", "alpha", "beta", "production"]

/-- The payload of `edits.tracks.get` / `edits.tracks.update` responses:
`data.releases` may be absent. -/
structure TrackData where
  releases : Option (List Release)
deriving DecidableEq, Repr

/-- `setReleaseTrack`: rejects a track outside `validTracks` before any
request; otherwise reads the current releases (`tracks.get`), appends
the new completed release, and writes the list back (`tracks.update`).
`getResp` / `updateResp` are the two platform responses. -/
def setReleaseTrack (getResp updateResp : Except JsError TrackData)
    (packageName editId track : String) (versionCode : Int)
    (releaseNotes : Option String) :
    Except String TrackData × List ApiCall :=
  if !(validTracks.contains track) then
    (.error ("Invalid track: " ++ track ++ ". Must be one of: " ++
      String.intercalate ", " validTracks), [])
  else
    match getResp with
    | .error e =>
      (.error ("Failed to set release track: " ++ e.message),
       [.tracksGet packageName editId track])
    | .ok cur =>
      let newRelease : Release :=
        { versionCodes := [toString versionCode], status := "completed",
          releaseNotes :=
            if strTruthy releaseNotes then some [("en-US", releaseNotes.getD "")]
            else none }
      let releases := (cur.releases.getD []) ++ [newRelease]
      match updateResp with
      | .ok d =>
        (.ok d, [.tracksGet packageName editId track,
                 .tracksUpdate packageName editId track releases])
      | .error e =>
        (.error ("Failed to set release track: " ++ e.message),
         [.tracksGet packageName editId track,
          .tracksUpdate packageName editId track releases])

/-! ## Graphics (`graphics.js`, `src/unnamed/part_002`) -/

/-- The slice of the local filesystem the graphics stage consults:
`fileExists` (an `fs.access` probe, true for directories too) and
`fs.readdir`. -/
structure Fs where
  pathExists : String → Bool
  readdir : String → List String

/-- The accepted screenshot extensions. -/
def imageExtensions : List String := [".png", ".jpg", ".jpeg"]

/-- Keep the entries whose lowercased extension is a recognized image
extension (everything else, subdirectory names included, is skipped). -/
def filterImages (files : List String) : List String :=
  files.filter (fun f => imageExtensions.contains (extnameLower f))

/-- The device-class subdirectories probed, in source order. -/
def screenshotSubdirs : List String := ["phone", "tablet", "tablet-10", "tv", "wear"]

/-- The `imageTypes` map from subdirectory name to platform image type. -/
def imageTypeOf : String → String
  | "phone" => "phoneScreenshots"
  | "tablet" => "sevenInchScreenshots"
  | "tablet-10" => "tenInchScreenshots"
  | "tv" => "tvScreenshots"
  | "wear" => "wearScreenshots"
  | _ => ""

/-- The per-device-class upload counters returned as the summary. -/
structure ScreenshotSummary where
  phone : Nat
  tablet : Nat
  tablet10 : Nat
  tv : Nat
  wear : Nat
deriving DecidableEq, Repr

/-- The all-zero summary the function starts from. -/
def zeroSummary : ScreenshotSummary :=
  { phone := 0, tablet := 0, tablet10 := 0, tv := 0, wear := 0 }

/-- `summary[subdir.replace("-", "")] = n` for the five known keys. -/
def setCount (s : ScreenshotSummary) (subdir : String) (n : Nat) : ScreenshotSummary :=
  match subdir with
  | "phone" => { s with phone := n }
  | "tablet" => { s with tablet := n }
  | "tablet-10" => { s with tablet10 := n }
  | "tv" => { s with tv := n }
  | "wear" => { s with wear := n }
  | _ => s

/-- `uploadScreenshots`: issues one `edits.images.upload` per path
(all are started via `Promise.all`); if any rejects, the wrapped first
rejection is thrown. `uploadResp p` is `some e` when the upload of `p`
rejects with `e`, `none` when it resolves. -/
def uploadScreenshots (uploadResp : String → Option JsError)
    (packageName editId language imageType : String) (screenshotPaths : List String) :
    Except String Nat × List ApiCall :=
  let calls := screenshotPaths.map
    (fun p => ApiCall.imageUpload packageName editId language imageType p)
  match screenshotPaths.filterMap uploadResp with
  | [] => (.ok screenshotPaths.length, calls)
  | e :: _ => (.error ("Failed to upload screenshots: " ++ e.message), calls)

/-- The subdirectory loop of `uploadScreenshotsFromDirectory`: for each
device-class subdirectory that exists and holds images, upload them
under its image type and record the count; a failed upload aborts the
loop (the calls already issued stay in the trace). -/
def runSubdirs (fs : Fs) (uploadResp : String → Option JsError)
    (packageName editId language screenshotsDir : String) :
    List String → ScreenshotSummary → Except String ScreenshotSummary × List ApiCall
  | [], summary => (.ok summary, [])
  | subdir :: rest, summary =>
    let subdirPath := joinPath screenshotsDir subdir
    if fs.pathExists subdirPath then
      let imageFiles := filterImages (fs.readdir subdirPath)
      if imageFiles.length > 0 then
        let screenshotPaths := imageFiles.map (fun f => joinPath subdirPath f)
        match uploadScreenshots uploadResp packageName editId language
            (imageTypeOf subdir) screenshotPaths with
        | (.ok n, calls) =>
          let (r, more) := runSubdirs fs uploadResp packageName editId language
            screenshotsDir rest (setCount summary subdir n)
          (r, calls ++ more)
        | (.error e, calls) => (.error e, calls)
      else
        runSubdirs fs uploadResp packageName editId language screenshotsDir rest summary
    else
      runSubdirs fs uploadResp packageName editId language screenshotsDir rest summary

/-- `uploadScreenshotsFromDirectory`: a missing directory returns the
all-zero summary with no request; otherwise the device-class
subdirectories are processed, and then — whenever the phone and tablet
counters are both still zero — every image directly inside the root is
uploaded as a phone screenshot. -/
def uploadScreenshotsFromDirectory (fs : Fs) (uploadResp : String → Option JsError)
    (packageName editId language screenshotsDir : String) :
    Except String ScreenshotSummary × List ApiCall :=
  if !(fs.pathExists screenshotsDir) then
    (.ok zeroSummary, [])
  else
    match runSubdirs fs uploadResp packageName editId language screenshotsDir
        screenshotSubdirs zeroSummary with
    | (.error e, calls) => (.error e, calls)
    | (.ok summary, calls) =>
      if summary.phone = 0 && summary.tablet = 0 then
        let imageFiles := filterImages (fs.readdir screenshotsDir)
        if imageFiles.length > 0 then
          let screenshotPaths := imageFiles.map (fun f => joinPath screenshotsDir f)
          match uploadScreenshots uploadResp packageName editId language
              "phoneScreenshots" screenshotPaths with
          | (.ok n, calls2) => (.ok { summary with phone := n }, calls ++ calls2)
          | (.error e, calls2) => (.error e, calls ++ calls2)
        else
          (.ok summary, calls)
      else
        (.ok summary, calls)

/-! ## Config loader (`config-loader.js`, second document of
`src/src/play-store/edits.js`) -/

/-- The `build` section of `play-store-config.json`. -/
structure BuildSection where
  aab : Option String
  apk : Option String
deriving DecidableEq, Repr

/-- The `metadata` section of the config; absent fields are `none`. -/
structure ConfigMetadata where
  title : Option String
  shortDescription : Option String
  fullDescription : Option String
  category : Option String
  privacyPolicyUrl : Option String
deriving DecidableEq, Repr

/-- The parsed config object; the `build` / `metadata` objects are
`none` when the field is absent. -/
structure PlayConfig where
  packageName : Option String
  build : Option BuildSection
  metadata : Option ConfigMetadata
deriving DecidableEq, Repr

/-- The top-level required fields (source order). -/
def requiredTopFields : List String := ["packageName", "build", "metadata"]

/-- The required metadata fields (source order). -/
def requiredMetadataFields : List String :=
  ["title", "shortDescription", "fullDescription", "category", "privacyPolicyUrl"]

/-- JS truthiness of `config[field]` for the three required top-level
fields (an object is truthy whenever present, a string when nonempty). -/
def topFieldPresent (c : PlayConfig) : String → Bool
  | "packageName" => strTruthy c.packageName
  | "build" => c.build.isSome
  | "metadata" => c.metadata.isSome
  | _ => true

/-- JS truthiness of `config.metadata[field]` for the required metadata
fields. -/
def metadataFieldPresent (m : ConfigMetadata) : String → Bool
  | "title" => strTruthy m.title
  | "shortDescription" => strTruthy m.shortDescription
  | "fullDescription" => strTruthy m.fullDescription
  | "category" => strTruthy m.category
  | "privacyPolicyUrl" => strTruthy m.privacyPolicyUrl
  | _ => true

/-- The missing top-level required fields of a config. -/
def missingTopFields (c : PlayConfig) : List String :=
  requiredTopFields.filter (fun f => !(topFieldPresent c f))

/-- The missing required metadata fields of a metadata section. -/
def missingMetadataFields (m : ConfigMetadata) : List String :=
  requiredMetadataFields.filter (fun f => !(metadataFieldPresent m f))

/-- `validateConfig`: first the top-level required fields (one error
listing all of them), then the aab/apk alternative, then the required
metadata fields (one error listing all of them); the category check
only warns and never throws. -/
def validateConfig (c : PlayConfig) : Except String Unit :=
  let missing := missingTopFields c
  if missing.length > 0 then
    .error ("Missing required config fields: " ++ String.intercalate ", " missing)
  else
    let b := c.build.getD { aab := none, apk := none }
    if !(strTruthy b.aab) && !(strTruthy b.apk) then
      .error "Config must specify either build.aab or build.apk"
    else
      let m := c.metadata.getD
        { title := none, shortDescription := none, fullDescription := none,
          category := none, privacyPolicyUrl := none }
      let missingMetadata := missingMetadataFields m
      if missingMetadata.length > 0 then
        .error ("Missing required metadata fields: " ++
          String.intercalate ", " missingMetadata)
      else
        .ok ()

/-- `loadPlayStoreConfig`: local file existence, parse, then
`validateConfig`; `fileOnDisk` is `none` when the file is absent and
`some none` when it parses to a falsy value. The function issues no
publishing request at all — the trace component is `[]` on every
path. -/
def loadPlayStoreConfig (fileOnDisk : Option (Option PlayConfig)) (configPath : String) :
    Except String PlayConfig × List ApiCall :=
  match fileOnDisk with
  | none => (.error ("Config file not found: " ++ configPath), [])
  | some none => (.error ("Failed to parse config file: " ++ configPath), [])
  | some (some config) =>
    match validateConfig config with
    | .error e => (.error e, [])
    | .ok _ => (.ok config, [])

/-! ## Concrete fixtures for witnesses and counterexamples -/

/-- A state file holding one persisted edit for `com.example.app`
(created at epoch millisecond 0), one `apps` entry, and one unrelated
top-level field. -/
def sampleState : StateFile :=
  { playStore :=
    { edits := fun k =>
        if k = "com.example.app" then some { editId := "edit-1", createdAt := 0 } else none,
      apps := fun k => if k = "com.example.app" then some "app-blob" else none },
    rest := fun k => if k = "version" then some "1" else none }

/-- A state file with no persisted edits. -/
def emptyState : StateFile :=
  { playStore := { edits := fun _ => none, apps := fun _ => none },
    rest := fun _ => none }

/-- A sample successful bundle-upload payload. -/
def sampleUpload : UploadData :=
  { versionCode := 7, versionName := none, sha1 := some "abc", sha256 := none }

/-- A screenshots directory with only a flat list of files at its root
(two images, one stray text file) and no subdirectories. -/
def flatFs : Fs :=
  { pathExists := fun p => p == "shots",
    readdir := fun p => if p == "shots" then ["a.png", "b.jpg", "notes.txt"] else [] }

/-- A screenshots directory whose only content is a `tv` subdirectory
holding two images. -/
def tvOnlyFs : Fs :=
  { pathExists := fun p => p == "shots" || p == "shots/tv",
    readdir := fun p =>
      if p == "shots" then ["tv"]
      else if p == "shots/tv" then ["a.png", "b.png"] else [] }

/-- A screenshots directory holding a `tv` subdirectory with one image
and one further image directly at the root. -/
def mixedFs : Fs :=
  { pathExists := fun p => p == "shots" || p == "shots/tv",
    readdir := fun p =>
      if p == "shots" then ["tv", "b.png"]
      else if p == "shots/tv" then ["a.png"] else [] }

/-- A config whose top level misses `packageName` while its metadata
also misses `title`. -/
def sampleConfigMissing : PlayConfig :=
  { packageName := none,
    build := some { aab := some "app-release.aab", apk := none },
    metadata := some
      { title := none, shortDescription := some "Short",
        fullDescription := some "Full", category := some "APPLICATION_PRODUCTIVITY",
        privacyPolicyUrl := some "https://example.com/privacy" } }

/-- A complete, valid config. -/
def sampleConfigFull : PlayConfig :=
  { packageName := some "com.example.app",
    build := some { aab := some "app-release.aab", apk := none },
    metadata := some
      { title := some "My App", shortDescription := some "Short",
        fullDescription := some "Full", category := some "APPLICATION_PRODUCTIVITY",
        privacyPolicyUrl := some "https://example.com/privacy" } }

end Hounds

namespace Hounds

/-! ## Shared lemmas -/

/-- The integer computation `roundMicros` agrees with
`Math.round(value * 1000000)` on the exact rational value. -/
theorem roundMicros_eq_jsRound (n : Int) (k : Nat) :
    roundMicros n k = jsRound (mkRat n (10 ^ k) * 1000000) := by
  rw [roundMicros, jsRound, Rat.mkRat_eq_div]
  have h : ((n : ℚ) / ((10 ^ k : Nat) : ℚ) * 1000000 + 1 / 2)
      = (((2 * (n * 1000000) + ((10 ^ k : Nat) : Int) : Int) : ℚ) /
        (((2 * 10 ^ k : Nat) : Nat) : ℚ)) := by
    have hd : (((10 ^ k : Nat) : ℚ)) ≠ 0 := by positivity
    field_simp
    ring
  rw [h, Rat.floor_intCast_div_natCast]
  norm_cast

/-- `uploadScreenshots` when every upload resolves: the count is the
number of paths and one `images.upload` request per path is issued. -/
theorem uploadScreenshots_all_ok (uploadResp : String → Option JsError)
    (hok : ∀ p, uploadResp p = none) (packageName editId language imageType : String)
    (paths : List String) :
    uploadScreenshots uploadResp packageName editId language imageType paths =
      (.ok paths.length,
       paths.map (fun p => ApiCall.imageUpload packageName editId language imageType p)) := by
  have h : paths.filterMap uploadResp = [] :=
    List.filterMap_eq_nil_iff.mpr (fun a _ => hok a)
  simp only [uploadScreenshots, h]

/-! ## Claim theorems -/

/-- C1: `commitEdit` clears the persisted edit record exactly when the
platform commit call succeeds: on success it returns the platform data
and the store afterwards holds no entry for the package; on any commit
failure an error is raised and the state file is returned unchanged;
a platform failure in `validateEdit` also raises an error (and
`validateEdit` takes no state file at all, so the persisted record is
untouched and stays present for resume). -/
theorem commitEdit_clears_iff_success (commitResp : Except JsError String)
    (validateResp : Except JsError (Option String)) (packageName editId : String)
    (s : StateFile) :
    (∀ d, commitResp = .ok d →
      (commitEdit commitResp packageName s).1 = .ok d ∧
      (commitEdit commitResp packageName s).2.playStore.edits packageName = none) ∧
    (∀ e, commitResp = .error e →
      (commitEdit commitResp packageName s).1.isOk = false ∧
      (commitEdit commitResp packageName s).2 = s) ∧
    (∀ e, validateResp = .error e →
      (validateEdit validateResp packageName editId).isOk = false) := by
  refine ⟨fun d hd => ?_, fun e he => ?_, fun e he => ?_⟩
  · subst hd
    refine ⟨rfl, ?_⟩
    simp only [commitEdit]
    rcases hrec : s.playStore.edits packageName with _ | r
    · simp [clearEditState, hrec]
    · simp [clearEditState, hrec]
  · subst he
    by_cases hc : e.code = some 400 <;>
      simp [commitEdit, hc, Except.isOk, Except.toBool]
  · subst he
    simp [validateEdit, Except.isOk, Except.toBool]

/-- C1 witness: a successful commit against `sampleState` clears the
record, a failed commit leaves the file unchanged. -/
theorem commitEdit_clears_iff_success_witness :
    ((commitEdit (.ok "done") "com.example.app" sampleState).1 = .ok "done" ∧
      (commitEdit (.ok "done") "com.example.app" sampleState).2.playStore.edits
        "com.example.app" = none) ∧
    ((commitEdit (.error { code := some 400, message := "inconsistent" })
        "com.example.app" sampleState).1.isOk = false ∧
      (commitEdit (.error { code := some 400, message := "inconsistent" })
        "com.example.app" sampleState).2 = sampleState) :=
  ⟨(commitEdit_clears_iff_success (.ok "done") (.ok none) "com.example.app" "edit-1"
      sampleState).1 "done" rfl,
   (commitEdit_clears_iff_success (.error { code := some 400, message := "inconsistent" })
      (.ok none) "com.example.app" "edit-1" sampleState).2.1
      { code := some 400, message := "inconsistent" } rfl⟩

/-- C2: `getExistingEdit` returns the stored edit id iff strictly less
than one hour (3600000 ms) has elapsed since `createdAt`; at or beyond
the boundary — including exactly one hour — it returns `none`, and an
absent record also yields `none`. -/
theorem getExistingEdit_strict_expiry (now : Int) (s : StateFile) (packageName : String) :
    (s.playStore.edits packageName = none → getExistingEdit now s packageName = none) ∧
    (∀ r, s.playStore.edits packageName = some r → r.editId ≠ "" →
      ((getExistingEdit now s packageName = some r.editId ↔
          now - r.createdAt < msPerHour) ∧
        (msPerHour ≤ now - r.createdAt → getExistingEdit now s packageName = none))) := by
  constructor
  · intro h
    simp [getExistingEdit, h]
  · intro r hr hid
    simp only [getExistingEdit, hr]
    rw [if_neg hid]
    by_cases hle : msPerHour ≤ now - r.createdAt
    · rw [if_pos hle]
      exact ⟨⟨fun h => Option.noConfusion h, fun h => absurd hle (by omega)⟩, fun _ => rfl⟩
    · rw [if_neg hle]
      exact ⟨⟨fun _ => by omega, fun _ => rfl⟩, fun h => absurd h hle⟩

/-- C2 witness: one millisecond before the boundary the edit of
`sampleState` is returned; at exactly one hour it is expired. -/
theorem getExistingEdit_strict_expiry_witness :
    getExistingEdit 3599999 sampleState "com.example.app" = some "edit-1" ∧
    getExistingEdit 3600000 sampleState "com.example.app" = none :=
  ⟨((getExistingEdit_strict_expiry 3599999 sampleState "com.example.app").2
      { editId := "edit-1", createdAt := 0 } (by decide) (by decide)).1.mpr (by decide),
   ((getExistingEdit_strict_expiry 3600000 sampleState "com.example.app").2
      { editId := "edit-1", createdAt := 0 } (by decide) (by decide)).2 (by decide)⟩

/-- C9: `clearEditState` (and hence a successful `commitEdit`) removes
only the edit record of the given package: records of every other
package, the `playStore.apps` section and every other top-level field
are unchanged, and when no record exists the state file is not
rewritten at all. -/
theorem clearEditState_frame (packageName : String) (s : StateFile) :
    (s.playStore.edits packageName = none → clearEditState packageName s = none) ∧
    (∀ s2, clearEditState packageName s = some s2 →
      s2.playStore.edits packageName = none ∧
      (∀ q, q ≠ packageName → s2.playStore.edits q = s.playStore.edits q) ∧
      s2.playStore.apps = s.playStore.apps ∧ s2.rest = s.rest) ∧
    (∀ d q, q ≠ packageName →
      (commitEdit (.ok d) packageName s).2.playStore.edits q = s.playStore.edits q ∧
      (commitEdit (.ok d) packageName s).2.playStore.apps = s.playStore.apps ∧
      (commitEdit (.ok d) packageName s).2.rest = s.rest) := by
  refine ⟨fun h => ?_, fun s2 h => ?_, fun d q hq => ?_⟩
  · simp [clearEditState, h]
  · rcases hrec : s.playStore.edits packageName with _ | r
    · simp [clearEditState, hrec] at h
    · simp only [clearEditState, hrec, Option.isSome_some, if_true, Option.some.injEq] at h
      subst h
      refine ⟨by simp, fun q hq => by simp [hq], rfl, rfl⟩
  · simp only [commitEdit]
    rcases hrec : s.playStore.edits packageName with _ | r
    · simp [clearEditState, hrec]
    · simp [clearEditState, hrec, hq]

/-- C9 witness: clearing `com.example.app` from `sampleState` keeps the
record of another package, the apps section and the unrelated field. -/
theorem clearEditState_frame_witness :
    (clearEditState "com.other.app" sampleState = none) ∧
    (∀ s2, clearEditState "com.example.app" sampleState = some s2 →
      s2.playStore.edits "com.example.app" = none ∧
      s2.playStore.apps = sampleState.playStore.apps ∧ s2.rest = sampleState.rest) :=
  ⟨(clearEditState_frame "com.other.app" sampleState).1 (by decide),
   fun s2 h =>
    ⟨((clearEditState_frame "com.example.app" sampleState).2.1 s2 h).1,
     ((clearEditState_frame "com.example.app" sampleState).2.1 s2 h).2.2.1,
     ((clearEditState_frame "com.example.app" sampleState).2.1 s2 h).2.2.2⟩⟩

/-- C3 counterexample: with no resumable edit, a 404 on session open and
a successful second open, `uploadBuildWithEdit` issues both
`edits.insert` requests before the bundle upload, and the upload
succeeds with zero session-open attempts at or after it — the claimed
open-once-more-after-the-successful-upload never happens. -/
theorem uploadBuildWithEdit_retry_before_upload_cex :
    (uploadBuildWithEdit
        (.error { code := some 404, message := "Requested entity was not found." })
        (.ok "edit-2") (.ok sampleUpload) 0 "com.example.app" "app-release.aab"
        emptyState).2.2 =
      [.editsInsert "com.example.app", .editsInsert "com.example.app",
       .bundleUpload "com.example.app" (some "edit-2") "app-release.aab"] ∧
    insertsFromFirstUpload
      (uploadBuildWithEdit
        (.error { code := some 404, message := "Requested entity was not found." })
        (.ok "edit-2") (.ok sampleUpload) 0 "com.example.app" "app-release.aab"
        emptyState).2.2 = 0 ∧
    (uploadBuildWithEdit
        (.error { code := some 404, message := "Requested entity was not found." })
        (.ok "edit-2") (.ok sampleUpload) 0 "com.example.app" "app-release.aab"
        emptyState).1.isOk = true := by
  refine ⟨?_, ?_, ?_⟩ <;> decide

/-- C3 (amended): when no persisted edit is resumable and the first
session open fails with a wrapped error whose message contains
"not found", `uploadBuildWithEdit` still attempts the binary upload, and
it attempts to open a session exactly once more — immediately after the
failed first attempt and before the upload, never after it: the trace is
exactly two `edits.insert` requests followed by one upload request. -/
theorem uploadBuildWithEdit_retry_before_upload (e : JsError)
    (insert2 : Except JsError String) (uploadResp : Except JsError UploadData)
    (now : Int) (packageName filePath : String) (s : StateFile)
    (hres : getExistingEdit now s packageName = none)
    (hmsg : ∀ m, (createEdit (.error e) now packageName s).1 = .error m →
      includes m "not found" = true)
    (hext : extnameLower filePath = ".aab") :
    ∃ u, (uploadBuildWithEdit (.error e) insert2 uploadResp now packageName
        filePath s).2.2 =
      [.editsInsert packageName, .editsInsert packageName, u] ∧
      isUpload u = true := by
  by_cases hc : e.code = some 404
  case pos =>
    have hinc := hmsg
      ("App " ++ packageName ++ " not found in Play Console. Create the app first.")
      (by simp [createEdit, hc])
    rcases insert2 with e2 | d2
    · refine ⟨.bundleUpload packageName none filePath, ?_, rfl⟩
      by_cases hc2 : e2.code = some 404 <;>
        rcases uploadResp with eu | du <;>
          simp [uploadBuildWithEdit, hres, createEdit, hc, hinc, hc2, uploadBuild, hext,
            uploadAAB]
    · refine ⟨.bundleUpload packageName (some d2) filePath, ?_, rfl⟩
      rcases uploadResp with eu | du <;>
        simp [uploadBuildWithEdit, hres, createEdit, hc, hinc, uploadBuild, hext, uploadAAB]
  case neg =>
    have hinc := hmsg ("Failed to create edit session: " ++ e.message)
      (by simp [createEdit, hc])
    rcases insert2 with e2 | d2
    · refine ⟨.bundleUpload packageName none filePath, ?_, rfl⟩
      by_cases hc2 : e2.code = some 404 <;>
        rcases uploadResp with eu | du <;>
          simp [uploadBuildWithEdit, hres, createEdit, hc, hinc, hc2, uploadBuild, hext,
            uploadAAB]
    · refine ⟨.bundleUpload packageName (some d2) filePath, ?_, rfl⟩
      rcases uploadResp with eu | du <;>
        simp [uploadBuildWithEdit, hres, createEdit, hc, hinc, uploadBuild, hext, uploadAAB]

/-- C3 witness: the amended theorem at the 404-then-success run against
the empty state. -/
theorem uploadBuildWithEdit_retry_before_upload_witness :
    ∃ u, (uploadBuildWithEdit
        (.error { code := some 404, message := "Requested entity was not found." })
        (.ok "edit-2") (.ok sampleUpload) 0 "com.example.app" "app-release.aab"
        emptyState).2.2 =
      [.editsInsert "com.example.app", .editsInsert "com.example.app", u] ∧
      isUpload u = true :=
  uploadBuildWithEdit_retry_before_upload
    { code := some 404, message := "Requested entity was not found." }
    (.ok "edit-2") (.ok sampleUpload) 0 "com.example.app" "app-release.aab" emptyState
    (by decide)
    (fun m hm => by
      simp [createEdit] at hm
      subst hm
      decide)
    (by decide)

/-- C4: `setPricing` with `free` sends priceMicros `"0"`; otherwise it
sends the decimal rendering of `Math.round(parsedPrice * 1000000)` —
rounding, not truncation — and whenever the currency field is omitted
the currency sent is `"USD"`; in particular price `"1.99"` yields
`"1990000"` and `"1.005"` yields `"1005000"`. -/
theorem setPricing_micros (pricing : Pricing) :
    (pricing.free = true → (setPricing pricing).priceMicros = "0") ∧
    (pricing.free = false → ∀ n k,
      jsParseFloatParts (pricing.price.getD "") = some (n, k) →
      jsParseFloat (pricing.price.getD "") = some (mkRat n (10 ^ k)) ∧
      (setPricing pricing).priceMicros =
        toString (jsRound (mkRat n (10 ^ k) * 1000000))) ∧
    (pricing.currency = none → (setPricing pricing).currency = "USD") ∧
    setPricing { free := false, price := some "1.99", currency := none } =
      { priceMicros := "1990000", currency := "USD" } ∧
    setPricing { free := false, price := some "1.005", currency := none } =
      { priceMicros := "1005000", currency := "USD" } := by
  refine ⟨fun hf => ?_, fun hf n k hp => ?_, fun hcur => ?_, by decide, by decide⟩
  · simp [setPricing, hf]
  · refine ⟨by simp [jsParseFloat, hp], ?_⟩
    simp [setPricing, hf, hp, roundMicros_eq_jsRound]
  · rcases hfree : pricing.free <;> simp [setPricing, hfree, hcur]

/-- C4 witness: the micros formula at price `"1.99"`. -/
theorem setPricing_micros_witness :
    jsParseFloat "1.99" = some (mkRat 199 (10 ^ 2)) ∧
    (setPricing { free := false, price := some "1.99", currency := none }).priceMicros =
      toString (jsRound (mkRat 199 (10 ^ 2) * 1000000)) :=
  (setPricing_micros { free := false, price := some "1.99", currency := none }).2.1
    rfl 199 2 (by decide)

/-- C5: `setReleaseTrack` rejects any track outside
{internal, alpha, beta, production} with the invalid-track error before
issuing any publishing request (empty trace); for a track inside the
set the check passes and the stage proceeds, its first request being
`tracks.get`. -/
theorem setReleaseTrack_valid_tracks (getResp updateResp : Except JsError TrackData)
    (packageName editId track : String) (versionCode : Int)
    (releaseNotes : Option String) :
    (validTracks.contains track = false →
      (setReleaseTrack getResp updateResp packageName editId track versionCode
          releaseNotes).1 =
        .error ("Invalid track: " ++ track ++ ". Must be one of: " ++
          String.intercalate ", " validTracks) ∧
      (setReleaseTrack getResp updateResp packageName editId track versionCode
          releaseNotes).2 = []) ∧
    (validTracks.contains track = true →
      (setReleaseTrack getResp updateResp packageName editId track versionCode
          releaseNotes).2.head? = some (.tracksGet packageName editId track)) := by
  constructor
  · intro h
    have h2 : ¬ track ∈ validTracks := by simpa using h
    constructor <;> simp [setReleaseTrack, h2]
  · intro h
    have h2 : track ∈ validTracks := by simpa using h
    rcases getResp with eg | dg
    · simp [setReleaseTrack, h2]
    · rcases updateResp with eu | du <;> simp [setReleaseTrack, h2]

/-- C5 witness: track `"rollout"` is rejected with no request; track
`"internal"` proceeds to `tracks.get`. -/
theorem setReleaseTrack_valid_tracks_witness :
    ((setReleaseTrack (.ok { releases := none }) (.ok { releases := none })
        "com.example.app" "edit-1" "rollout" 7 none).1 =
      .error ("Invalid track: " ++ "rollout" ++ ". Must be one of: " ++
        String.intercalate ", " validTracks) ∧
     (setReleaseTrack (.ok { releases := none }) (.ok { releases := none })
        "com.example.app" "edit-1" "rollout" 7 none).2 = []) ∧
    (setReleaseTrack (.ok { releases := none }) (.ok { releases := none })
        "com.example.app" "edit-1" "internal" 7 none).2.head? =
      some (.tracksGet "com.example.app" "edit-1" "internal") :=
  ⟨(setReleaseTrack_valid_tracks (.ok { releases := none }) (.ok { releases := none })
      "com.example.app" "edit-1" "rollout" 7 none).1 (by decide),
   (setReleaseTrack_valid_tracks (.ok { releases := none }) (.ok { releases := none })
      "com.example.app" "edit-1" "internal" 7 none).2 (by decide)⟩

/-- C6: `setListingMetadata` rejects — before any listing request, with
an error naming the offending field — a title over 50 characters, a
short description over 80, a full description over 4000, or a privacy
policy URL the URL parser rejects; metadata within all limits whose URL
the parser accepts passes the local validation, and on any validation
error the request trace is empty. -/
theorem setListingMetadata_local_validation (urlOk : String → Bool)
    (updateResp : Except JsError String) (packageName editId language : String)
    (m : Metadata) :
    (∀ e, validateMetadata urlOk m = .error e →
      setListingMetadata urlOk updateResp packageName editId language m =
        (.error e, [])) ∧
    ((strTruthy m.title && decide ((m.title.getD "").length > 50)) = true →
      validateMetadata urlOk m = .error ("Title exceeds 50 characters (" ++
        toString (m.title.getD "").length ++ " chars)")) ∧
    ((strTruthy m.title && decide ((m.title.getD "").length > 50)) = false →
      (strTruthy m.shortDescription &&
        decide ((m.shortDescription.getD "").length > 80)) = true →
      validateMetadata urlOk m = .error ("Short description exceeds 80 characters (" ++
        toString (m.shortDescription.getD "").length ++ " chars)")) ∧
    ((strTruthy m.title && decide ((m.title.getD "").length > 50)) = false →
      (strTruthy m.shortDescription &&
        decide ((m.shortDescription.getD "").length > 80)) = false →
      (strTruthy m.fullDescription &&
        decide ((m.fullDescription.getD "").length > 4000)) = true →
      validateMetadata urlOk m = .error ("Full description exceeds 4000 characters (" ++
        toString (m.fullDescription.getD "").length ++ " chars)")) ∧
    ((strTruthy m.title && decide ((m.title.getD "").length > 50)) = false →
      (strTruthy m.shortDescription &&
        decide ((m.shortDescription.getD "").length > 80)) = false →
      (strTruthy m.fullDescription &&
        decide ((m.fullDescription.getD "").length > 4000)) = false →
      (strTruthy m.privacyPolicyUrl && !(urlOk (m.privacyPolicyUrl.getD ""))) = true →
      validateMetadata urlOk m =
        .error ("Invalid privacy policy URL: " ++ m.privacyPolicyUrl.getD "")) ∧
    ((strTruthy m.title && decide ((m.title.getD "").length > 50)) = false →
      (strTruthy m.shortDescription &&
        decide ((m.shortDescription.getD "").length > 80)) = false →
      (strTruthy m.fullDescription &&
        decide ((m.fullDescription.getD "").length > 4000)) = false →
      (strTruthy m.privacyPolicyUrl && !(urlOk (m.privacyPolicyUrl.getD ""))) = false →
      validateMetadata urlOk m = .ok ()) := by
  refine ⟨fun e he => ?_, fun h1 => ?_, fun h1 h2 => ?_, fun h1 h2 h3 => ?_,
    fun h1 h2 h3 h4 => ?_, fun h1 h2 h3 h4 => ?_⟩
  · simp [setListingMetadata, he]
  · simp [validateMetadata, h1]
  · simp [validateMetadata, h1, h2]
  · simp [validateMetadata, h1, h2, h3]
  · simp [validateMetadata, h1, h2, h3, h4]
  · simp [validateMetadata, h1, h2, h3, h4]

/-- C6 witness: a 51-character title is rejected locally with the
title-naming error and an empty request trace. -/
theorem setListingMetadata_local_validation_witness :
    validateMetadata (fun _ => true)
      { title := some "A truly, unreasonably long application title etc...",
        shortDescription := some "Short", fullDescription := some "Full",
        category := some "APPLICATION_PRODUCTIVITY",
        privacyPolicyUrl := some "https://example.com/privacy" } =
      .error "Title exceeds 50 characters (51 chars)" ∧
    setListingMetadata (fun _ => true) (.ok "listing") "com.example.app" "edit-1" "en-US"
      { title := some "A truly, unreasonably long application title etc...",
        shortDescription := some "Short", fullDescription := some "Full",
        category := some "APPLICATION_PRODUCTIVITY",
        privacyPolicyUrl := some "https://example.com/privacy" } =
      (.error "Title exceeds 50 characters (51 chars)", []) := by
  have h := (setListingMetadata_local_validation (fun _ => true) (.ok "listing")
    "com.example.app" "edit-1" "en-US"
    { title := some "A truly, unreasonably long application title etc...",
      shortDescription := some "Short", fullDescription := some "Full",
      category := some "APPLICATION_PRODUCTIVITY",
      privacyPolicyUrl := some "https://example.com/privacy" }).2.1 (by decide)
  exact ⟨h, (setListingMetadata_local_validation (fun _ => true) (.ok "listing")
    "com.example.app" "edit-1" "en-US"
    { title := some "A truly, unreasonably long application title etc...",
      shortDescription := some "Short", fullDescription := some "Full",
      category := some "APPLICATION_PRODUCTIVITY",
      privacyPolicyUrl := some "https://example.com/privacy" }).1 _ h⟩

/-- C7 counterexample: with a recognized `tv/` subdirectory present and
uploaded from, the image at the directory root is nevertheless uploaded
as a phone screenshot — the root fallback is not restricted to the case
where no recognized device-class subdirectory is found. -/
theorem uploadScreenshotsFromDirectory_fallback_cex :
    mixedFs.pathExists "shots/tv" = true ∧
    uploadScreenshotsFromDirectory mixedFs (fun _ => none) "com.example.app" "edit-1"
        "en-US" "shots" =
      (.ok { phone := 1, tablet := 0, tablet10 := 0, tv := 1, wear := 0 },
       [.imageUpload "com.example.app" "edit-1" "en-US" "tvScreenshots" "shots/tv/a.png",
        .imageUpload "com.example.app" "edit-1" "en-US" "phoneScreenshots" "shots/b.png"]) :=
  ⟨rfl, rfl⟩

/-- C7 (amended): the root images are uploaded as phone screenshots
whenever neither the `phone/` nor the `tablet/` subdirectory contributed
any images — even when another recognized subdirectory such as `tv/`
did. In particular a directory with no recognized subdirectory uploads
every root image as a phone screenshot, and a directory whose only
content is a `tv/` subdirectory uploads exactly its images as TV
screenshots with nothing flattened from the (image-free) root. -/
theorem uploadScreenshotsFromDirectory_fallback (fs : Fs)
    (uploadResp : String → Option JsError) (packageName editId language dir : String)
    (hok : ∀ p, uploadResp p = none) (hroot : fs.pathExists dir = true) :
    ((∀ sub ∈ screenshotSubdirs, fs.pathExists (joinPath dir sub) = false) →
      uploadScreenshotsFromDirectory fs uploadResp packageName editId language dir =
        (.ok { zeroSummary with phone := (filterImages (fs.readdir dir)).length },
         (filterImages (fs.readdir dir)).map (fun f =>
           .imageUpload packageName editId language "phoneScreenshots" (joinPath dir f)))) ∧
    (fs.pathExists (joinPath dir "tv") = true →
      (∀ sub ∈ ["phone", "tablet", "tablet-10", "wear"],
        fs.pathExists (joinPath dir sub) = false) →
      uploadScreenshotsFromDirectory fs uploadResp packageName editId language dir =
        (.ok { phone := (filterImages (fs.readdir dir)).length, tablet := 0,
               tablet10 := 0,
               tv := (filterImages (fs.readdir (joinPath dir "tv"))).length, wear := 0 },
         (filterImages (fs.readdir (joinPath dir "tv"))).map (fun f =>
           .imageUpload packageName editId language "tvScreenshots"
             (joinPath (joinPath dir "tv") f)) ++
         (filterImages (fs.readdir dir)).map (fun f =>
           .imageUpload packageName editId language "phoneScreenshots"
             (joinPath dir f)))) := by
  constructor
  · intro hsub
    have hp := hsub "phone" (by simp [screenshotSubdirs])
    have ht := hsub "tablet" (by simp [screenshotSubdirs])
    have h10 := hsub "tablet-10" (by simp [screenshotSubdirs])
    have htv := hsub "tv" (by simp [screenshotSubdirs])
    have hw := hsub "wear" (by simp [screenshotSubdirs])
    rcases hImg : filterImages (fs.readdir dir) with _ | ⟨f, rest⟩ <;>
      simp [uploadScreenshotsFromDirectory, hroot, screenshotSubdirs, runSubdirs,
        hp, ht, h10, htv, hw, hImg, uploadScreenshots_all_ok uploadResp hok,
        zeroSummary]
  · intro htv hsub
    have hp := hsub "phone" (by simp)
    have ht := hsub "tablet" (by simp)
    have h10 := hsub "tablet-10" (by simp)
    have hw := hsub "wear" (by simp)
    rcases hTv : filterImages (fs.readdir (joinPath dir "tv")) with _ | ⟨t, ts⟩ <;>
      rcases hImg : filterImages (fs.readdir dir) with _ | ⟨f, rest⟩ <;>
      simp [uploadScreenshotsFromDirectory, hroot, screenshotSubdirs, runSubdirs,
        hp, ht, h10, htv, hw, hTv, hImg, uploadScreenshots_all_ok uploadResp hok,
        setCount, zeroSummary, imageTypeOf, Function.comp_def]

/-- C7 witness: the amended theorem at the flat directory and at the
tv-only directory. -/
theorem uploadScreenshotsFromDirectory_fallback_witness :
    uploadScreenshotsFromDirectory flatFs (fun _ => none) "com.example.app" "edit-1"
        "en-US" "shots" =
      (.ok { zeroSummary with phone := (filterImages (flatFs.readdir "shots")).length },
       (filterImages (flatFs.readdir "shots")).map (fun f =>
         .imageUpload "com.example.app" "edit-1" "en-US" "phoneScreenshots"
           (joinPath "shots" f))) ∧
    uploadScreenshotsFromDirectory tvOnlyFs (fun _ => none) "com.example.app" "edit-1"
        "en-US" "shots" =
      (.ok { phone := (filterImages (tvOnlyFs.readdir "shots")).length, tablet := 0,
             tablet10 := 0,
             tv := (filterImages (tvOnlyFs.readdir (joinPath "shots" "tv"))).length,
             wear := 0 },
       (filterImages (tvOnlyFs.readdir (joinPath "shots" "tv"))).map (fun f =>
         .imageUpload "com.example.app" "edit-1" "en-US" "tvScreenshots"
           (joinPath (joinPath "shots" "tv") f)) ++
       (filterImages (tvOnlyFs.readdir "shots")).map (fun f =>
         .imageUpload "com.example.app" "edit-1" "en-US" "phoneScreenshots"
           (joinPath "shots" f))) :=
  ⟨(uploadScreenshotsFromDirectory_fallback flatFs (fun _ => none) "com.example.app"
      "edit-1" "en-US" "shots" (fun _ => rfl) rfl).1 (by decide),
   (uploadScreenshotsFromDirectory_fallback tvOnlyFs (fun _ => none) "com.example.app"
      "edit-1" "en-US" "shots" (fun _ => rfl) rfl).2 rfl (by decide)⟩

/-- C10: a missing screenshots directory makes
`uploadScreenshotsFromDirectory` return the all-zero summary
`{phone: 0, tablet: 0, tablet10: 0, tv: 0, wear: 0}` without raising any
error and without issuing any upload request — even though a rejected
individual screenshot upload makes `uploadScreenshots` throw. -/
theorem uploadScreenshotsFromDirectory_missing_dir (fs : Fs)
    (uploadResp : String → Option JsError) (packageName editId language dir : String)
    (hmiss : fs.pathExists dir = false) :
    uploadScreenshotsFromDirectory fs uploadResp packageName editId language dir =
      (.ok { phone := 0, tablet := 0, tablet10 := 0, tv := 0, wear := 0 }, []) ∧
    (∀ (resp2 : String → Option JsError) (p : String) (e : JsError) (t : String),
      resp2 p = some e →
      (uploadScreenshots resp2 packageName editId language t [p]).1 =
        .error ("Failed to upload screenshots: " ++ e.message)) := by
  constructor
  · simp [uploadScreenshotsFromDirectory, hmiss, zeroSummary]
  · intro resp2 p e t h
    simp [uploadScreenshots, h]

/-- C10 witness: a nonexistent directory of `flatFs` yields the all-zero
summary and an empty trace; a rejected single upload throws. -/
theorem uploadScreenshotsFromDirectory_missing_dir_witness :
    uploadScreenshotsFromDirectory flatFs (fun _ => none) "com.example.app" "edit-1"
        "en-US" "missing-dir" =
      (.ok { phone := 0, tablet := 0, tablet10 := 0, tv := 0, wear := 0 }, []) ∧
    (uploadScreenshots (fun _ => some { code := some 500, message := "boom" })
        "com.example.app" "edit-1" "en-US" "phoneScreenshots" ["shots/a.png"]).1 =
      .error ("Failed to upload screenshots: " ++ "boom") :=
  ⟨(uploadScreenshotsFromDirectory_missing_dir flatFs (fun _ => none) "com.example.app"
      "edit-1" "en-US" "missing-dir" (by decide)).1,
   (uploadScreenshotsFromDirectory_missing_dir flatFs (fun _ => none) "com.example.app"
      "edit-1" "en-US" "missing-dir" (by decide)).2
     (fun _ => some { code := some 500, message := "boom" }) "shots/a.png"
     { code := some 500, message := "boom" } "phoneScreenshots" rfl⟩

/-- C8 counterexample: `sampleConfigMissing` misses both the top-level
`packageName` and the required metadata field `title`, yet the single
error raised names only `packageName` — the missing metadata field is
not enumerated in that error. -/
theorem validateConfig_two_level_cex :
    validateConfig sampleConfigMissing =
      .error "Missing required config fields: packageName" ∧
    (∀ m, sampleConfigMissing.metadata = some m →
      metadataFieldPresent m "title" = false) ∧
    includes "Missing required config fields: packageName" "title" = false := by
  refine ⟨rfl, ?_, by decide⟩
  intro m hm
  cases hm
  decide

/-- C8 (amended): `loadPlayStoreConfig` issues no publishing request on
any path; missing top-level required fields are all enumerated in one
error; only once the top level is complete (and an artifact path is
given) are the metadata fields checked, every missing one enumerated in
a separate single error; a complete config passes. Fields missing at
the two levels are never combined into one error. -/
theorem validateConfig_enumerates (c : PlayConfig) :
    (∀ f p, (loadPlayStoreConfig f p).2 = []) ∧
    (missingTopFields c ≠ [] →
      validateConfig c = .error ("Missing required config fields: " ++
        String.intercalate ", " (missingTopFields c))) ∧
    (∀ b, c.build = some b → missingTopFields c = [] →
      (strTruthy b.aab || strTruthy b.apk) = true →
      ∀ m, c.metadata = some m → missingMetadataFields m ≠ [] →
      validateConfig c = .error ("Missing required metadata fields: " ++
        String.intercalate ", " (missingMetadataFields m))) ∧
    (∀ b, c.build = some b → missingTopFields c = [] →
      (strTruthy b.aab || strTruthy b.apk) = true →
      ∀ m, c.metadata = some m → missingMetadataFields m = [] →
      validateConfig c = .ok ()) := by
  refine ⟨fun f p => ?_, fun h => ?_, fun b hb htop hbuild m hm hmm => ?_,
    fun b hb htop hbuild m hm hmm => ?_⟩
  · rcases f with _ | _ | c2
    · rfl
    · rfl
    · rcases h : validateConfig c2 with e | u <;> simp [loadPlayStoreConfig, h]
  · have hlen : 0 < (missingTopFields c).length := List.length_pos.mpr h
    simp [validateConfig, hlen]
  · have hb2 : (!(strTruthy b.aab) && !(strTruthy b.apk)) = false := by
      cases hA : strTruthy b.aab <;> cases hP : strTruthy b.apk <;> simp_all
    have hlen : 0 < (missingMetadataFields m).length :=
      List.length_pos.mpr hmm
    simp [validateConfig, htop, hb, hb2, hm, hlen]
  · have hb2 : (!(strTruthy b.aab) && !(strTruthy b.apk)) = false := by
      cases hA : strTruthy b.aab <;> cases hP : strTruthy b.apk <;> simp_all
    simp [validateConfig, htop, hb, hb2, hm, hmm]

/-- C8 witness: the missing-top-level error on `sampleConfigMissing` and
the passing run on `sampleConfigFull`. -/
theorem validateConfig_enumerates_witness :
    validateConfig sampleConfigMissing =
      .error ("Missing required config fields: " ++
        String.intercalate ", " (missingTopFields sampleConfigMissing)) ∧
    validateConfig sampleConfigFull = .ok () :=
  ⟨(validateConfig_enumerates sampleConfigMissing).2.1 (by decide),
   (validateConfig_enumerates sampleConfigFull).2.2.2
     { aab := some "app-release.aab", apk := none } rfl (by decide) (by decide)
     { title := some "My App", shortDescription := some "Short",
       fullDescription := some "Full", category := some "APPLICATION_PRODUCTIVITY",
       privacyPolicyUrl := some "https://example.com/privacy" } rfl (by decide)⟩

end Hounds
